import Mathlib

/-!
# Brightness table lookup and the orchestrator's decision rule

A shallow embedding of `main.go`: the band table `ranges`, the lookup
`getPercentage`, the monitor accessors `getBrightness` / `setBrightness`
and the tail of `main` that compares the target with the current value.

Go's `int` is modelled by `Int`; the code performs comparisons only, no
arithmetic, so every statement over `Int` covers every machine integer.
-/

set_option autoImplicit false

namespace Brightness

/-! ## Data model -/

/-- The Go struct `BrightnessRange`: one band of the lookup table. -/
structure BrightnessRange where
  Min : Int
  Max : Int
  Percentage : Int
  deriving DecidableEq, Repr

/-- The package-level table `ranges`, in declaration order. -/
def ranges : List BrightnessRange :=
  [ { Min := 0, Max := 10, Percentage := 10 },
    { Min := 5, Max := 50, Percentage := 25 },
    { Min := 15, Max := 100, Percentage := 40 },
    { Min := 60, Max := 300, Percentage := 55 },
    { Min := 150, Max := 400, Percentage := 70 },
    { Min := 250, Max := 650, Percentage := 85 },
    { Min := 350, Max := 2000, Percentage := 100 },
    { Min := 1000, Max := 7000, Percentage := 115 },
    { Min := 5000, Max := 10000, Percentage := 130 } ]

/-- The loop of `getPercentage` over an arbitrary table: return the
percentage of the first band whose test `value >= r.Min && value < r.Max`
succeeds, and `0` when the loop runs off the end. -/
def getPercentageIn : List BrightnessRange → Int → Int
  | [], _ => 0
  | r :: rest, value =>
    if value >= r.Min && value < r.Max then r.Percentage
    else getPercentageIn rest value

/-- The Go function `getPercentage`: the loop run over `ranges`. -/
def getPercentage (value : Int) : Int :=
  getPercentageIn ranges value

/-- Membership of a lux value in a band, the condition the loop tests. -/
def BrightnessRange.Matches (r : BrightnessRange) (value : Int) : Prop :=
  r.Min ≤ value ∧ value < r.Max

instance (r : BrightnessRange) (value : Int) : Decidable (r.Matches value) := by
  unfold BrightnessRange.Matches
  infer_instance

/-! ## Sensor value -/

/-- The lux handed to `getPercentage` in `main`, that is
`int(value)` for `value, _ := strconv.ParseFloat(sensor.Value, 64)`, on the
fragment of sensor strings made of one to fifteen decimal digits. Such a
number is below `2^53`, so the float is the number itself and the
truncation changes nothing. Other strings are outside the fragment and
give `none`. -/
def parseLux (s : String) : Option Int :=
  let cs := s.toList
  if cs ≠ [] ∧ cs.length ≤ 15 ∧ cs.all Char.isDigit = true then
    some (Int.ofNat (cs.foldl (fun n c => 10 * n + (c.toNat - 48)) 0))
  else
    none

/-! ## Monitor and orchestrator -/

/-- The state of the display behind a `*ddcci.PhysicalMonitor`: the
brightness it currently holds; `readFault`, which is `none` when the control
channel answers a read and `some x` when the read fails and the library
hands back `x` next to the error; and `writeOk`, which tells for each value
whether the channel accepts a write of it (a rejected write returns an error
and changes nothing). -/
structure PhysicalMonitor where
  brightness : Int
  readFault : Option Int
  writeOk : Int → Bool

/-- What the run leaves behind: log lines and calls of the hardware write. -/
inductive Event where
  | info (msg : String) (v : Int)
  | warn (msg : String) (v : Int)
  | error (msg : String)
  | write (v : Int)
  deriving DecidableEq, Repr

/-- The monitor together with the trace of events so far. -/
structure World where
  monitor : PhysicalMonitor
  trace : List Event

/-- The Go function `getBrightness`: the value the library returns as
current; a failed read is logged and the value is returned all the same. -/
def getBrightness (w : World) : Int × World :=
  match w.monitor.readFault with
  | none => (w.monitor.brightness, w)
  | some x =>
    (x, { w with trace := w.trace ++ [Event.error "Error getting monitor brightness"] })

/-- The Go function `setBrightness`: log, call the hardware write, log an
error when the write fails. -/
def setBrightness (w : World) (value : Int) : World :=
  let t := w.trace ++ [Event.info "setting monitor brightness" value, Event.write value]
  if w.monitor.writeOk value then
    { monitor := { w.monitor with brightness := value }, trace := t }
  else
    { monitor := w.monitor, trace := t ++ [Event.error "Error setting monitor brightness"] }

/-- The body of `main` from the read of the current brightness on, with the
truncated sensor value `lux` (the `int(value)` of the source) as input. -/
def main (w : World) (lux : Int) : World :=
  let (current, w1) := getBrightness w
  let w2 := { w1 with trace := w1.trace ++ [Event.info "current brightness" current] }
  let percentage := getPercentage lux
  if percentage != current then
    setBrightness w2 percentage
  else
    { w2 with trace := w2.trace ++ [Event.warn "brightness is already at, skipping" current] }

/-- The hardware writes recorded in a trace, in order. -/
def writes : List Event → List Int
  | [] => []
  | Event.write v :: rest => v :: writes rest
  | _ :: rest => writes rest

/-! ## Lemmas about the lookup -/

theorem getPercentageIn_cons_of_matches (r : BrightnessRange) (rest : List BrightnessRange)
    (v : Int) (h : r.Matches v) : getPercentageIn (r :: rest) v = r.Percentage := by
  have h1 : r.Min ≤ v := h.1
  have h2 : v < r.Max := h.2
  simp [getPercentageIn, h1, h2]

theorem getPercentageIn_cons_of_not_matches (r : BrightnessRange)
    (rest : List BrightnessRange) (v : Int) (h : ¬ r.Matches v) :
    getPercentageIn (r :: rest) v = getPercentageIn rest v := by
  unfold BrightnessRange.Matches at h
  simp only [getPercentageIn]
  split_ifs with hc
  · simp at hc
    exact absurd hc h
  · rfl

/-- The closed form of the lookup over the literal table. -/
theorem getPercentage_closed (v : Int) :
    getPercentage v =
      if v < 0 then 0 else if v < 10 then 10 else if v < 50 then 25
      else if v < 100 then 40 else if v < 300 then 55 else if v < 400 then 70
      else if v < 650 then 85 else if v < 2000 then 100 else if v < 7000 then 115
      else if v < 10000 then 130 else 0 := by
  simp only [getPercentage, ranges, getPercentageIn, ge_iff_le, Bool.and_eq_true,
    decide_eq_true_eq]
  omega

theorem getPercentageIn_of_no_match (rs : List BrightnessRange) (v : Int)
    (h : ∀ r ∈ rs, ¬ r.Matches v) : getPercentageIn rs v = 0 := by
  induction rs with
  | nil => rfl
  | cons r rest ih =>
    rw [getPercentageIn_cons_of_not_matches r rest v (h r (List.mem_cons_self r rest))]
    exact ih (fun q hq => h q (List.mem_cons_of_mem r hq))

theorem getPercentageIn_of_first_match (rs : List BrightnessRange) (v : Int) :
    ∀ (i : Nat) (hi : i < rs.length), (rs.get ⟨i, hi⟩).Matches v →
      (∀ (j : Nat) (hj : j < rs.length), j < i → ¬ (rs.get ⟨j, hj⟩).Matches v) →
      getPercentageIn rs v = (rs.get ⟨i, hi⟩).Percentage := by
  induction rs with
  | nil => intro i hi; exact absurd hi (Nat.not_lt_zero i)
  | cons r rest ih =>
    intro i hi hm hfirst
    cases i with
    | zero => exact getPercentageIn_cons_of_matches r rest v hm
    | succ k =>
      have h0 : ¬ r.Matches v := hfirst 0 (Nat.succ_pos _) (Nat.succ_pos k)
      rw [getPercentageIn_cons_of_not_matches r rest v h0]
      have hk : k < rest.length := Nat.lt_of_succ_lt_succ hi
      exact ih k hk hm (fun j hj hjk => hfirst (j + 1) (Nat.succ_lt_succ hj)
        (Nat.succ_lt_succ hjk))

theorem exists_first_match (rs : List BrightnessRange) (v : Int)
    (h : ∃ r ∈ rs, r.Matches v) :
    ∃ (i : Nat) (hi : i < rs.length), (rs.get ⟨i, hi⟩).Matches v ∧
      ∀ (j : Nat) (hj : j < rs.length), j < i → ¬ (rs.get ⟨j, hj⟩).Matches v := by
  induction rs with
  | nil =>
    obtain ⟨r, hr, _⟩ := h
    exact absurd hr (List.not_mem_nil r)
  | cons r rest ih =>
    by_cases h0 : r.Matches v
    · exact ⟨0, Nat.succ_pos _, h0, fun j _ hj => absurd hj (Nat.not_lt_zero j)⟩
    · obtain ⟨q, hq, hqm⟩ := h
      have hq2 : q ∈ rest := by
        rcases List.mem_cons.mp hq with heq | hin
        · subst heq
          exact absurd hqm h0
        · exact hin
      obtain ⟨i, hi, him, hfirst⟩ := ih ⟨q, hq2, hqm⟩
      refine ⟨i + 1, Nat.succ_lt_succ hi, him, ?_⟩
      intro j hj hji
      cases j with
      | zero => exact h0
      | succ k =>
        exact hfirst k (Nat.lt_of_succ_lt_succ hj) (Nat.lt_of_succ_lt_succ hji)

theorem writes_append (xs ys : List Event) : writes (xs ++ ys) = writes xs ++ writes ys := by
  induction xs with
  | nil => rfl
  | cons e rest ih => cases e <;> simp [writes, ih]

/-! ## The lookup policy -/

/-- C1: `getPercentage` is the first-match-wins lookup over `ranges` in
declaration order. When some band contains the value there is a least index
whose band contains it and the result is that band's percentage; the result
is the percentage of any band that contains the value while no earlier band
does; and when no band contains the value the result is `0`. -/
theorem getPercentage_first_match_wins (v : Int) :
    ((∃ r ∈ ranges, r.Matches v) →
      ∃ (i : Nat) (hi : i < ranges.length), (ranges.get ⟨i, hi⟩).Matches v ∧
        (∀ (j : Nat) (hj : j < ranges.length), j < i → ¬ (ranges.get ⟨j, hj⟩).Matches v) ∧
        getPercentage v = (ranges.get ⟨i, hi⟩).Percentage) ∧
    (∀ (i : Nat) (hi : i < ranges.length), (ranges.get ⟨i, hi⟩).Matches v →
      (∀ (j : Nat) (hj : j < ranges.length), j < i → ¬ (ranges.get ⟨j, hj⟩).Matches v) →
      getPercentage v = (ranges.get ⟨i, hi⟩).Percentage) ∧
    ((∀ r ∈ ranges, ¬ r.Matches v) → getPercentage v = 0) := by
  refine ⟨?_, ?_, ?_⟩
  · intro h
    obtain ⟨i, hi, hm, hfirst⟩ := exists_first_match ranges v h
    exact ⟨i, hi, hm, hfirst, getPercentageIn_of_first_match ranges v i hi hm hfirst⟩
  · intro i hi hm hfirst
    exact getPercentageIn_of_first_match ranges v i hi hm hfirst
  · intro h
    exact getPercentageIn_of_no_match ranges v h

/-- C1 at concrete inputs: at lux 1500 band 6 is the first band that
contains the value and the result is its percentage; at lux -3 no band
contains the value and the result is 0. -/
theorem getPercentage_first_match_wins_witness :
    (ranges.get ⟨6, by decide⟩).Matches 1500 ∧
    (∀ (j : Nat) (hj : j < ranges.length), j < 6 → ¬ (ranges.get ⟨j, hj⟩).Matches 1500) ∧
    getPercentage 1500 = (ranges.get ⟨6, by decide⟩).Percentage ∧
    (∀ r ∈ ranges, ¬ r.Matches (-3)) ∧ getPercentage (-3) = 0 :=
  have hm : (ranges.get ⟨6, by decide⟩).Matches 1500 := by decide
  have hf : ∀ (j : Nat) (hj : j < ranges.length), j < 6 →
      ¬ (ranges.get ⟨j, hj⟩).Matches 1500 := by
    decide
  have hn : ∀ r ∈ ranges, ¬ r.Matches (-3) := by decide
  ⟨hm, hf, (getPercentage_first_match_wins 1500).2.1 6 (by decide) hm hf,
    hn, (getPercentage_first_match_wins (-3)).2.2 hn⟩

/-- C2: for every lux `v` with `1000 <= v < 2000`, both the band
`[350,2000) -> 100` and the band `[1000,7000) -> 115` of the table contain
`v`, and `getPercentage v` is 100, the earlier band's percentage, not 115. -/
theorem getPercentage_overlap_1000_2000 (v : Int) (h1 : 1000 ≤ v) (h2 : v < 2000) :
    ranges[6]? = some { Min := 350, Max := 2000, Percentage := 100 } ∧
    ranges[7]? = some { Min := 1000, Max := 7000, Percentage := 115 } ∧
    BrightnessRange.Matches { Min := 350, Max := 2000, Percentage := 100 } v ∧
    BrightnessRange.Matches { Min := 1000, Max := 7000, Percentage := 115 } v ∧
    getPercentage v = 100 ∧ getPercentage v ≠ 115 := by
  refine ⟨rfl, rfl, ⟨?_, ?_⟩, ⟨?_, ?_⟩, ?_, ?_⟩
  · show (350 : Int) ≤ v
    omega
  · show v < 2000
    omega
  · show (1000 : Int) ≤ v
    omega
  · show v < 7000
    omega
  · rw [getPercentage_closed]
    omega
  · rw [getPercentage_closed]
    omega

/-- C2 at lux 1500. -/
theorem getPercentage_overlap_1000_2000_witness :
    ((1000 : Int) ≤ 1500 ∧ (1500 : Int) < 2000) ∧
    BrightnessRange.Matches { Min := 350, Max := 2000, Percentage := 100 } 1500 ∧
    BrightnessRange.Matches { Min := 1000, Max := 7000, Percentage := 115 } 1500 ∧
    getPercentage 1500 = 100 ∧ getPercentage 1500 ≠ 115 :=
  ⟨by decide, (getPercentage_overlap_1000_2000 1500 (by decide) (by decide)).2.2⟩

/-- C3 as stated fails: the sensor string "42" parses to lux 42, but
`getPercentage 42` is not 40. -/
theorem sensor_42_is_not_40 :
    ¬ (parseLux "42" = some 42 ∧ getPercentage 42 = 40) := by
  decide

/-- C3, amended: the sensor string "42" parses to lux 42 and
`getPercentage 42 = 25`, the percentage of the band `[5,50)`, which is
declared (index 1) before the band `[15,100) -> 40` (index 2); both bands
contain 42 and the band before them, `[0,10)`, does not. -/
theorem sensor_42_gives_25 :
    parseLux "42" = some 42 ∧ getPercentage 42 = 25 ∧
    ranges[0]? = some { Min := 0, Max := 10, Percentage := 10 } ∧
    ranges[1]? = some { Min := 5, Max := 50, Percentage := 25 } ∧
    ranges[2]? = some { Min := 15, Max := 100, Percentage := 40 } ∧
    ¬ BrightnessRange.Matches { Min := 0, Max := 10, Percentage := 10 } 42 ∧
    BrightnessRange.Matches { Min := 5, Max := 50, Percentage := 25 } 42 ∧
    BrightnessRange.Matches { Min := 15, Max := 100, Percentage := 40 } 42 := by
  decide

/-- C4: for every lux `v` with `v < 0` or `v >= 10000`, `getPercentage v`
is 0; in particular at -1 and at 10000. -/
theorem getPercentage_out_of_range (v : Int) (h : v < 0 ∨ 10000 ≤ v) :
    getPercentage v = 0 ∧ getPercentage (-1) = 0 ∧ getPercentage 10000 = 0 := by
  refine ⟨?_, by decide, by decide⟩
  rw [getPercentage_closed]
  omega

/-- C4 at lux 12345. -/
theorem getPercentage_out_of_range_witness :
    ((12345 : Int) < 0 ∨ (10000 : Int) ≤ 12345) ∧ getPercentage 12345 = 0 :=
  ⟨by decide, (getPercentage_out_of_range 12345 (by decide)).1⟩

/-! ## The orchestrator -/

/-- C5: with `c` the current brightness read by `getBrightness` and
`t = getPercentage lux`, the run of `main` issues the hardware write of `t`
(exactly one new write, of `t`) if and only if `t` differs from `c`; when
`t = c` the run issues no write and leaves the monitor unchanged. -/
theorem main_writes_iff_differs (w : World) (lux : Int) :
    (writes (main w lux).trace = writes w.trace ++ [getPercentage lux] ↔
      getPercentage lux ≠ (getBrightness w).1) ∧
    (getPercentage lux = (getBrightness w).1 →
      writes (main w lux).trace = writes w.trace ∧ (main w lux).monitor = w.monitor) := by
  obtain ⟨⟨b, rd, wr⟩, tr⟩ := w
  by_cases h : getPercentage lux = (getBrightness ⟨⟨b, rd, wr⟩, tr⟩).1
  · cases rd <;>
      simp_all [main, getBrightness, setBrightness, writes_append, writes]
  · cases rd <;> cases hw : wr (getPercentage lux) <;>
      simp_all [main, getBrightness, setBrightness, writes_append, writes]

/-- C5 at concrete states: a monitor at 25 with lux 42 (target 25) gets no
write and is unchanged; a monitor at 70 with lux 42 gets the write of 25. -/
theorem main_writes_iff_differs_witness :
    (getPercentage 42 = (getBrightness ⟨⟨25, none, fun _ => true⟩, []⟩).1 ∧
      writes (main ⟨⟨25, none, fun _ => true⟩, []⟩ 42).trace = [] ∧
      (main ⟨⟨25, none, fun _ => true⟩, []⟩ 42).monitor.brightness = 25) ∧
    (getPercentage 42 ≠ (getBrightness ⟨⟨70, none, fun _ => true⟩, []⟩).1 ∧
      writes (main ⟨⟨70, none, fun _ => true⟩, []⟩ 42).trace = [25]) :=
  ⟨⟨by decide,
      ((main_writes_iff_differs ⟨⟨25, none, fun _ => true⟩, []⟩ 42).2 (by decide)).1,
      congrArg PhysicalMonitor.brightness
        ((main_writes_iff_differs ⟨⟨25, none, fun _ => true⟩, []⟩ 42).2 (by decide)).2⟩,
    ⟨by decide, (main_writes_iff_differs ⟨⟨70, none, fun _ => true⟩, []⟩ 42).1.mpr (by decide)⟩⟩

/-! ## Bounds of the table -/

/-- C6: the upper bound of a band is exclusive and the lower bound
inclusive. For every band `r` of `ranges`, the value `r.Max` is not matched
by `r` and `getPercentage r.Max` is not `r.Percentage`, while `r.Min` is
matched by `r`; in particular `getPercentage 10` is not 10 and
`getPercentage 10000` is not 130. -/
theorem getPercentage_max_exclusive (r : BrightnessRange) (hr : r ∈ ranges) :
    (¬ r.Matches r.Max ∧ getPercentage r.Max ≠ r.Percentage ∧ r.Matches r.Min) ∧
    getPercentage 10 ≠ 10 ∧ getPercentage 10000 ≠ 130 := by
  have hall : ∀ q ∈ ranges,
      ¬ q.Matches q.Max ∧ getPercentage q.Max ≠ q.Percentage ∧ q.Matches q.Min := by
    decide
  exact ⟨hall r hr, by decide, by decide⟩

/-- C6 at the band `[350,2000) -> 100`. -/
theorem getPercentage_max_exclusive_witness :
    ({ Min := 350, Max := 2000, Percentage := 100 } : BrightnessRange) ∈ ranges ∧
    ¬ BrightnessRange.Matches { Min := 350, Max := 2000, Percentage := 100 } 2000 ∧
    getPercentage 2000 ≠ 100 ∧
    BrightnessRange.Matches { Min := 350, Max := 2000, Percentage := 100 } 350 :=
  ⟨by decide,
    (getPercentage_max_exclusive { Min := 350, Max := 2000, Percentage := 100 }
      (by decide)).1⟩

/-- C7: for every lux `v` with `0 <= v < 10`, `getPercentage v` is 10. -/
theorem getPercentage_lowest_band (v : Int) (h0 : 0 ≤ v) (h1 : v < 10) :
    getPercentage v = 10 := by
  rw [getPercentage_closed]
  omega

/-- C7 at lux 7. -/
theorem getPercentage_lowest_band_witness :
    ((0 : Int) ≤ 7 ∧ (7 : Int) < 10) ∧ getPercentage 7 = 10 :=
  ⟨by decide, getPercentage_lowest_band 7 (by decide) (by decide)⟩

/-- C8: for every lux `v`, `0 <= getPercentage v <= 130`, and the upper
bound is attained at lux 7000, above the nominal 100. -/
theorem getPercentage_bounds :
    (∀ v : Int, 0 ≤ getPercentage v ∧ getPercentage v ≤ 130) ∧
    getPercentage 7000 = 130 ∧ (100 : Int) < getPercentage 7000 := by
  refine ⟨?_, by decide, by decide⟩
  intro v
  rw [getPercentage_closed]
  omega

/-- C9: the table has no gap inside its domain. For every lux `v` with
`0 <= v < 10000` some band of `ranges` contains `v` and
`getPercentage v >= 10`; the result 0 is produced exactly when `v < 0` or
`v >= 10000`. -/
theorem getPercentage_no_gap (v : Int) :
    (0 ≤ v ∧ v < 10000 → (∃ r ∈ ranges, r.Matches v) ∧ 10 ≤ getPercentage v) ∧
    (getPercentage v = 0 ↔ v < 0 ∨ 10000 ≤ v) := by
  have hc := getPercentage_closed v
  refine ⟨?_, ?_⟩
  · intro hv
    have h10 : 10 ≤ getPercentage v := by omega
    refine ⟨?_, h10⟩
    by_contra hno
    have hnone : ∀ r ∈ ranges, ¬ r.Matches v := fun r hr hm => hno ⟨r, hr, hm⟩
    have h0 : getPercentage v = 0 := getPercentageIn_of_no_match ranges v hnone
    omega
  · omega

/-- C9 at lux 5500 and at the two fallback sides. -/
theorem getPercentage_no_gap_witness :
    ((0 : Int) ≤ 5500 ∧ (5500 : Int) < 10000) ∧
    (∃ r ∈ ranges, r.Matches 5500) ∧ 10 ≤ getPercentage 5500 ∧
    (getPercentage 5500 = 0 ↔ (5500 : Int) < 0 ∨ (10000 : Int) ≤ 5500) :=
  ⟨by decide, (getPercentage_no_gap 5500).1 (by decide) |>.1,
    (getPercentage_no_gap 5500).1 (by decide) |>.2, (getPercentage_no_gap 5500).2⟩

/-- C10: below the top of the table the lookup is monotone: for all
`a <= b < 10000`, `getPercentage a <= getPercentage b`. A pair `a <= b` on
which the result drops has `0 <= a < 10000 <= b`, and such a drop happens
from `getPercentage 9999 = 130` to `getPercentage 10000 = 0`. -/
theorem getPercentage_monotone_below_top (a b : Int) (hab : a ≤ b) :
    (b < 10000 → getPercentage a ≤ getPercentage b) ∧
    (getPercentage b < getPercentage a → 0 ≤ a ∧ a < 10000 ∧ 10000 ≤ b) ∧
    getPercentage 9999 = 130 ∧ getPercentage 10000 = 0 := by
  have ha := getPercentage_closed a
  have hb := getPercentage_closed b
  refine ⟨?_, ?_, by decide, by decide⟩
  · intro hlt
    omega
  · intro hdrop
    omega

/-- C10 at the pair 42, 1500 below the top, and at the pair 9999, 10000
across it. -/
theorem getPercentage_monotone_below_top_witness :
    ((42 : Int) ≤ 1500 ∧ (1500 : Int) < 10000 ∧ getPercentage 42 ≤ getPercentage 1500) ∧
    ((9999 : Int) ≤ 10000 ∧ getPercentage 10000 < getPercentage 9999 ∧
      (0 : Int) ≤ 9999 ∧ (9999 : Int) < 10000 ∧ (10000 : Int) ≤ 10000) :=
  ⟨⟨by decide, by decide, (getPercentage_monotone_below_top 42 1500 (by decide)).1 (by decide)⟩,
    ⟨by decide, by decide,
      (getPercentage_monotone_below_top 9999 10000 (by decide)).2.1 (by decide)⟩⟩

end Brightness
